import Mathlib

/-!
Verification of the email classification core of the
`email-intelligence-system` repository, embedded from
`src/services/classifier-service/workflows/email_classifier.py` and
`src/services/classifier-service/config/settings.py`.

The Completion Capability (`llm.ainvoke`) is external: it is modelled as a
value of `LLMResponse` (either an exception with a message, or returned
text).  The standard-library JSON decoder (`json.loads`) is likewise
external: the nodes are parameterised over a decoder
`loads : String -> Except String JsonVal`, where `.error` corresponds to a
`json.JSONDecodeError`.  Python floats are modelled as rationals; the
values compared here (0.3, 0.5, model-reported confidences) are exact in
both representations.
-/

namespace EmailIntel

/-- A JSON value, the result of a successful `json.loads`. -/
inductive JsonVal where
  | str : String → JsonVal
  | num : Rat → JsonVal
  | bool : Bool → JsonVal
  | null : JsonVal
  | arr : List JsonVal → JsonVal
  | obj : List (String × JsonVal) → JsonVal
deriving Repr

mutual

/-- Structural equality on decoded JSON values, modelling Python `==` on
them (the cross-type numeric equalities `True == 1` etc. never arise in
the membership checks the nodes perform, which compare against string
literals). -/
def JsonVal.beq : JsonVal → JsonVal → Bool
  | .str a, .str b => a = b
  | .num a, .num b => a = b
  | .bool a, .bool b => a = b
  | .null, .null => true
  | .arr a, .arr b => JsonVal.beqList a b
  | .obj a, .obj b => JsonVal.beqFields a b
  | _, _ => false

/-- Elementwise equality of JSON arrays. -/
def JsonVal.beqList : List JsonVal → List JsonVal → Bool
  | [], [] => true
  | a :: as', b :: bs => JsonVal.beq a b && JsonVal.beqList as' bs
  | _, _ => false

/-- Fieldwise equality of JSON objects. -/
def JsonVal.beqFields : List (String × JsonVal) → List (String × JsonVal) → Bool
  | [], [] => true
  | (k, v) :: fs, (k2, v2) :: gs => k = k2 && JsonVal.beq v v2 && JsonVal.beqFields fs gs
  | _, _ => false

end

/-- A single quote character, used when rendering Python error messages. -/
def squote : String := String.singleton (Char.ofNat 39)

/-- Python `str.upper()` (ASCII fragment). -/
def pyUpper (s : String) : String := s.map Char.toUpper

mutual

/-- Python `repr`/`str` of a value decoded from JSON, as interpolated into
f-string error messages.  Number formatting approximates CPython float
repr; no claim inspects these rendered characters. -/
def pyRepr : JsonVal → String
  | .str s => squote ++ s ++ squote
  | .num q => toString q
  | .bool b => if b then "True" else "False"
  | .null => "None"
  | .arr xs => "[" ++ pyReprList xs ++ "]"
  | .obj fs => "\x7b" ++ pyReprFields fs ++ "\x7d"

/-- Comma-separated rendering of a JSON array's elements. -/
def pyReprList : List JsonVal → String
  | [] => ""
  | [x] => pyRepr x
  | x :: xs => pyRepr x ++ ", " ++ pyReprList xs

/-- Comma-separated rendering of a JSON object's fields. -/
def pyReprFields : List (String × JsonVal) → String
  | [] => ""
  | [(k, v)] => squote ++ k ++ squote ++ ": " ++ pyRepr v
  | (k, v) :: fs => squote ++ k ++ squote ++ ": " ++ pyRepr v ++ ", " ++ pyReprFields fs

end

/-- Python `str(x)` for a decoded JSON value: strings render bare, other
values as their repr. -/
def pyStr : JsonVal → String
  | .str s => s
  | v => pyRepr v

/-- Python `field in result` for a decoded JSON value: key membership on a
dict, element membership on a list, substring test on a string, and a
`TypeError` (modelled as `.error`) on non-container values. -/
def pyContains (result : JsonVal) (field : String) : Except String Bool :=
  match result with
  | .obj fs => .ok (fs.any (fun kv => kv.1 = field))
  | .arr xs => .ok (xs.any (fun v => JsonVal.beq v (.str field)))
  | .str s => .ok (if field = "" then true else (s.splitOn field).length > 1)
  | _ => .error "argument of type is not iterable"

/-- Python `result[field]` for a decoded JSON value: dict lookup (last
binding wins, `KeyError` if absent), `TypeError` otherwise. -/
def pyIndex (result : JsonVal) (field : String) : Except String JsonVal :=
  match result with
  | .obj fs =>
      match (fs.filter (fun kv => kv.1 = field)).getLast? with
      | some kv => .ok kv.2
      | none => .error (squote ++ field ++ squote)
  | .arr _ => .error "list indices must be integers or slices, not str"
  | .str _ => .error "string indices must be integers"
  | _ => .error "object is not subscriptable"

/-- Equality of `Except` values is decidable when both components are;
needed so that concrete runs can be settled by `decide`. -/
instance {ε α : Type} [DecidableEq ε] [DecidableEq α] : DecidableEq (Except ε α) := fun x y =>
  match x, y with
  | .error a, .error b =>
      if h : a = b then .isTrue (by rw [h]) else .isFalse (by intro hc; cases hc; exact h rfl)
  | .ok a, .ok b =>
      if h : a = b then .isTrue (by rw [h]) else .isFalse (by intro hc; cases hc; exact h rfl)
  | .error _, .ok _ => .isFalse (by intro hc; cases hc)
  | .ok _, .error _ => .isFalse (by intro hc; cases hc)

/-- Python `str.strip()` on the character list (ASCII whitespace
fragment; CPython also strips a few rarer whitespace code points). -/
def stripChars (l : List Char) : List Char :=
  ((l.dropWhile Char.isWhitespace).reverse.dropWhile Char.isWhitespace).reverse

/-- Value of an all-digits character run, `none` otherwise. -/
def digitsVal (l : List Char) : Option Nat :=
  if l ≠ [] ∧ l.all (fun c => c.isDigit) then
    some (l.foldl (fun a c => a * 10 + (c.toNat - 48)) 0)
  else none

/-- Python `float(str)` on plain decimal strings: surrounding whitespace
stripped, optional sign, digits, optional fractional part.  CPython also
accepts exponents, leading/trailing bare dots, underscores and named
values such as `inf`; those inputs are modelled as conversion errors,
which only coarsens paths no claim exercises. -/
def strToFloat (s : String) : Except String Rat :=
  let l := stripChars s.data
  let neg : Bool := match l.head? with | some c => c = '-' | none => false
  let l := match l with
    | '-' :: rest => rest
    | '+' :: rest => rest
    | _ => l
  let q : Option Rat :=
    match l.splitOn '.' with
    | [ip] => (digitsVal ip).map (fun n => mkRat (Int.ofNat n) 1)
    | [ip, fp] =>
        match digitsVal ip, digitsVal fp with
        | some n, some f => some (mkRat (Int.ofNat (n * 10 ^ fp.length + f)) (10 ^ fp.length))
        | _, _ => none
    | _ => none
  match q with
  | some v => .ok (if neg then -v else v)
  | none => .error "could not convert string to float"

/-- Python `float(x)` on a decoded JSON value: numbers and booleans
coerce, numeric strings parse, everything else is a `TypeError`. -/
def pyFloat : JsonVal → Except String Rat
  | .num q => .ok q
  | .bool b => .ok (if b then 1 else 0)
  | .str s => strToFloat s
  | _ => .error "float() argument must be a string or a real number"

/-! ### Settings (`config/settings.py`) -/

/-- The configuration fields of `Settings` that the classification core
reads.  Other fields (model name, token limits, service metadata) only
parameterise the provider clients and are omitted. -/
structure Settings where
  llm_provider : String
  gemini_api_key : Option String
  openai_api_key : Option String
  anthropic_api_key : Option String
  high_confidence_threshold : Rat
  low_confidence_threshold : Rat
deriving DecidableEq, Repr

/-- The field defaults declared on `Settings` in `config/settings.py`. -/
def default_settings : Settings where
  llm_provider := "gemini"
  gemini_api_key := none
  openai_api_key := none
  anthropic_api_key := none
  high_confidence_threshold := mkRat 3 4
  low_confidence_threshold := mkRat 1 2

/-- The message of the `ValueError` raised by `Settings.get_api_key`. -/
def api_key_error_msg (provider : String) : String :=
  "API key for provider " ++ squote ++ provider ++ squote ++
    " not found. Please set " ++ pyUpper provider ++ "_API_KEY in your .env file"

/-- `Settings.get_api_key`: look the provider up in the key map (`None`
for an unknown provider) and raise when the key is `None` or empty
(Python truthiness). -/
def Settings.get_api_key (s : Settings) : Except String String :=
  let api_key : Option String :=
    if s.llm_provider = "gemini" then s.gemini_api_key
    else if s.llm_provider = "openai" then s.openai_api_key
    else if s.llm_provider = "anthropic" then s.anthropic_api_key
    else none
  match api_key with
  | none => .error (api_key_error_msg s.llm_provider)
  | some k => if k = "" then .error (api_key_error_msg s.llm_provider) else .ok k

/-- The provider client returned by the LLM factory.  The client objects
only carry configuration; the behaviour of an invocation is supplied
separately as an `LLMResponse`. -/
inductive LLMProvider where
  | gemini : LLMProvider
  | openai : LLMProvider
  | anthropic : LLMProvider
deriving DecidableEq, Repr

/-- `get_llm`: reads the provider, calls `get_api_key` (which raises
first for a missing key — including for any unsupported provider, whose
key-map lookup yields `None`), then branches on the provider name.
`.error` models the `ValueError` escaping the factory. -/
def get_llm (s : Settings) : Except String LLMProvider :=
  match s.get_api_key with
  | .error e => .error e
  | .ok _ =>
    if s.llm_provider = "gemini" then .ok .gemini
    else if s.llm_provider = "openai" then .ok .openai
    else if s.llm_provider = "anthropic" then .ok .anthropic
    else .error ("Unsupported LLM provider: " ++ s.llm_provider ++
      ". Supported providers: gemini, openai, anthropic")

/-! ### Response normalizer (`clean_json_response`) -/

/-- Python `str.startswith(pat)` on character lists. -/
def startsL : List Char → List Char → Bool
  | [], _ => true
  | _ :: _, [] => false
  | p :: ps, c :: cs => p = c && startsL ps cs

/-- Python `str.endswith(pat)` on character lists. -/
def endsL (pat l : List Char) : Bool := startsL pat.reverse l.reverse

/-- The closing-fence step of `clean_json_response`: Python
`content[:-3]` when `content.endswith("` ++ "``" ++ "`" ++ "\")`. -/
def dropClose (l : List Char) : List Char :=
  if endsL "```".data l then l.take (l.length - 3) else l

/-- The opening-fence step of `clean_json_response`: `content[7:]` after
a literal `` ```json `` opener, else `content[3:]` after a bare fence. -/
def dropOpen (l : List Char) : List Char :=
  if startsL "```json".data l then l.drop 7
  else if startsL "```".data l then l.drop 3
  else l

/-- `clean_json_response` on character lists: strip, remove an opener,
remove a trailing fence, strip again. -/
def cleanCore (l : List Char) : List Char :=
  stripChars (dropClose (dropOpen (stripChars l)))

/-- `clean_json_response`: strip whitespace, drop a markdown code-block
opener (`` ```json `` whole, or a bare `` ``` ``), drop a trailing
closing fence, and strip again. -/
def clean_json_response (content : String) : String :=
  String.mk (cleanCore content.data)

/-! ### Workflow state (`EmailClassificationState`) -/

/-- The state dictionary flowing through the workflow.  `reasoning` and
`keywords` are stored as decoded JSON values because the Python code
commits whatever the model returned for them without a type check. -/
structure EmailClassificationState where
  email_id : String
  subject : String
  body : String
  sender : String
  category : String
  confidence : Rat
  reasoning : JsonVal
  keywords : JsonVal
  retry_count : Int
  processing_stage : String
deriving Repr

/-- Outcome of one `llm.ainvoke(messages)` call: either an exception with
a message, or a response whose `.content` is the given text. -/
inductive LLMResponse where
  | raiseErr : String → LLMResponse
  | content : String → LLMResponse
deriving Repr

/-- The category literals accepted by both nodes. -/
def valid_categories : List String := ["spam", "important", "neutral"]

/-- The required-fields list of the classification node. -/
def required_fields : List String := ["category", "confidence", "reasoning", "keywords"]

/-- Python `all(field in result for field in fields)`: short-circuits on
the first `False`; a `TypeError` from `in` propagates. -/
def allContains (result : JsonVal) : List String → Except String Bool
  | [] => .ok true
  | f :: fs => do
      let b ← pyContains result f
      if b then allContains result fs else .ok false

/-- Validation and extraction steps of `classify_email_node` after a
successful `json.loads` (lines 190–207): require all four fields, require
a valid category, then read the four values (coercing confidence with
`float`).  `.error` carries the message of the raised exception. -/
def classifyExtract (result : JsonVal) : Except String (String × Rat × JsonVal × JsonVal) := do
  let ok ← allContains result required_fields
  if ¬ ok then
    throw ("Missing required fields in response: " ++ pyRepr result)
  let cat ← pyIndex result "category"
  let c ←
    match cat with
    | .str c => if c ∈ valid_categories then pure c else throw ("Invalid category: " ++ pyStr cat)
    | _ => throw ("Invalid category: " ++ pyStr cat)
  let conf ← pyFloat (← pyIndex result "confidence")
  let reasoning ← pyIndex result "reasoning"
  let keywords ← pyIndex result "keywords"
  pure (c, conf, reasoning, keywords)

/-- Validation and extraction steps of `reanalyze_node` after a
successful `json.loads` (lines 291–303): only the category is validated;
the other three fields are read (and confidence coerced) while building
the returned dict, so a missing field raises there. -/
def reanalyzeExtract (result : JsonVal) : Except String (String × Rat × JsonVal × JsonVal) := do
  let cat ← pyIndex result "category"
  let c ←
    match cat with
    | .str c => if c ∈ valid_categories then pure c else throw ("Invalid category: " ++ pyStr cat)
    | _ => throw ("Invalid category: " ++ pyStr cat)
  let conf ← pyFloat (← pyIndex result "confidence")
  let reasoning ← pyIndex result "reasoning"
  let keywords ← pyIndex result "keywords"
  pure (c, conf, reasoning, keywords)

/-- The state produced by the `except json.JSONDecodeError` handler of
`classify_email_node` (lines 210–219). -/
def jsonParseFailState (st : EmailClassificationState) : EmailClassificationState :=
  { st with
    category := "neutral"
    confidence := mkRat 3 10
    reasoning := .str "Unable to parse LLM response"
    keywords := .arr []
    processing_stage := "error_json_parse" }

/-- The state produced by the blanket `except Exception` handler of
`classify_email_node` (lines 220–229), where `e` is `str(exception)`. -/
def classifyErrorState (st : EmailClassificationState) (e : String) : EmailClassificationState :=
  { st with
    category := "neutral"
    confidence := mkRat 3 10
    reasoning := .str ("Error during classification: " ++ e.take 100)
    keywords := .arr []
    processing_stage := "error" }

/-- The body of `classify_email_node`'s `try`/`except` (lines 183–229),
total once the factory has produced a client: invoke the capability,
normalize and decode the text, validate and extract, and map each failure
to its handler's state. -/
def classify_step (loads : String → Except String JsonVal) (resp : LLMResponse)
    (st : EmailClassificationState) : EmailClassificationState :=
  match resp with
  | .raiseErr e => classifyErrorState st e
  | .content text =>
    match loads (clean_json_response text) with
    | .error _ => jsonParseFailState st
    | .ok result =>
      match classifyExtract result with
      | .error e => classifyErrorState st e
      | .ok (c, conf, reasoning, keywords) =>
          { st with
            category := c
            confidence := conf
            reasoning := reasoning
            keywords := keywords
            processing_stage := "classified" }

/-- `classify_email_node`: the factory call `get_llm()` happens before
the `try` block (line 177), so a configuration error escapes the node as
an exception (`.error`); every other failure is absorbed by
`classify_step`. -/
def classify_email_node (s : Settings) (loads : String → Except String JsonVal)
    (resp : LLMResponse) (st : EmailClassificationState) :
    Except String EmailClassificationState :=
  match get_llm s with
  | .error e => .error e
  | .ok _ => .ok (classify_step loads resp st)

/-- The body of `reanalyze_node`'s `try`/`except` (lines 286–313): on any
failure the prior classification fields are preserved and only
`retry_count` and `processing_stage` change. -/
def reanalyze_step (loads : String → Except String JsonVal) (resp : LLMResponse)
    (st : EmailClassificationState) : EmailClassificationState :=
  let failed : EmailClassificationState :=
    { st with
      retry_count := st.retry_count + 1
      processing_stage := "reanalysis_failed" }
  match resp with
  | .raiseErr _ => failed
  | .content text =>
    match loads (clean_json_response text) with
    | .error _ => failed
    | .ok result =>
      match reanalyzeExtract result with
      | .error _ => failed
      | .ok (c, conf, reasoning, keywords) =>
          { st with
            category := c
            confidence := conf
            reasoning := reasoning
            keywords := keywords
            retry_count := st.retry_count + 1
            processing_stage := "reanalyzed" }

/-- `reanalyze_node`: as with classification, `get_llm()` runs before the
`try` block (line 280), so only a configuration error escapes. -/
def reanalyze_node (s : Settings) (loads : String → Except String JsonVal)
    (resp : LLMResponse) (st : EmailClassificationState) :
    Except String EmailClassificationState :=
  match get_llm s with
  | .error e => .error e
  | .ok _ => .ok (reanalyze_step loads resp st)

/-- `should_reanalyze`: retries exhausted beats confidence; otherwise a
strictly-below-threshold confidence routes to reanalysis. -/
def should_reanalyze (s : Settings) (st : EmailClassificationState) : String :=
  if st.retry_count ≥ 1 then "max_retries"
  else if st.confidence < s.low_confidence_threshold then "reanalyze"
  else "end"

/-- The compiled graph of `create_classification_workflow` applied to a
start state: run `classify`, route on `should_reanalyze` through the
conditional-edge map (`"reanalyze"` to the reanalysis node, `"end"` and
`"max_retries"` to END), and run `reanalyze` at most once.  `resp1` and
`resp2` are the capability's behaviours at the first and (potential)
second invocation; their mere number makes the two-invocations cap
structural. -/
def run_classification_workflow (s : Settings) (loads : String → Except String JsonVal)
    (resp1 resp2 : LLMResponse) (st : EmailClassificationState) :
    Except String EmailClassificationState :=
  match classify_email_node s loads resp1 st with
  | .error e => .error e
  | .ok st1 =>
    match should_reanalyze s st1 with
    | "reanalyze" => reanalyze_node s loads resp2 st1
    | "end" => .ok st1
    | "max_retries" => .ok st1
    | _ => .error "branch condition returned unknown target"

/-- The initial state built by `classify_email` (lines 419–430). -/
def initial_state (email_id subject body sender : String) : EmailClassificationState where
  email_id := email_id
  subject := subject
  body := body
  sender := sender
  category := ""
  confidence := 0
  reasoning := .str ""
  keywords := .arr []
  retry_count := 0
  processing_stage := "initialized"

/-- The dictionary returned by `classify_email` (lines 437–444); it has
exactly these six keys. -/
structure ClassifyResult where
  email_id : String
  category : String
  confidence : Rat
  reasoning : JsonVal
  keywords : JsonVal
  processing_stage : String
deriving Repr

/-- `classify_email`: initialize state, run the workflow, and project the
six returned fields.  An exception from the workflow (only possible from
the factory) propagates as `.error`. -/
def classify_email (s : Settings) (loads : String → Except String JsonVal)
    (resp1 resp2 : LLMResponse) (email_id subject body sender : String) :
    Except String ClassifyResult :=
  match run_classification_workflow s loads resp1 resp2
      (initial_state email_id subject body sender) with
  | .error e => .error e
  | .ok f =>
      .ok { email_id := f.email_id, category := f.category, confidence := f.confidence,
            reasoning := f.reasoning, keywords := f.keywords,
            processing_stage := f.processing_stage }

/-! ### Derived notions and concrete fixtures used by the theorems -/

/-- The confidence value exactly as a node reads it from a decoded
payload: `float(result["confidence"])`. -/
def reported_confidence (j : JsonVal) : Except String Rat :=
  match pyIndex j "confidence" with
  | .error e => .error e
  | .ok v => pyFloat v

/-- `SegOf m l`: `m` occurs in `l` as one contiguous, unaltered run of
characters. -/
def SegOf (m l : List Char) : Prop := ∃ s t, l = s ++ m ++ t

/-- A configuration whose provider has an API key, so that `get_llm`
succeeds: the factory is the only exception source inside the nodes. -/
def test_settings : Settings := { default_settings with gemini_api_key := some "k" }

/-- A decoder behaviour on which `json.loads` always fails (the model
answered prose). -/
def loads_err : String → Except String JsonVal := fun _ => .error "Expecting value"

/-- A decoder behaviour on which `json.loads` always yields `j`. -/
def loads_const (j : JsonVal) : String → Except String JsonVal := fun _ => .ok j

/-- A well-formed model payload with confidence 0.95. -/
def good_payload : JsonVal := .obj
  [("category", .str "spam"), ("confidence", .num (mkRat 95 100)),
   ("reasoning", .str "lottery scam"), ("keywords", .arr [.str "prize"])]

/-- A payload that is structurally valid but reports confidence 2.0,
outside [0, 1]. -/
def over_payload : JsonVal := .obj
  [("category", .str "spam"), ("confidence", .num 2),
   ("reasoning", .str "very sure"), ("keywords", .arr [])]

/-- The terminal state of one workflow run, as a function of the two
capability behaviours, assuming the factory succeeded: classify once,
then reanalyze exactly when the router says so. -/
def workflow_final (s : Settings) (loads : String → Except String JsonVal)
    (r1 r2 : LLMResponse) (st : EmailClassificationState) : EmailClassificationState :=
  if should_reanalyze s (classify_step loads r1 st) = "reanalyze" then
    reanalyze_step loads r2 (classify_step loads r1 st)
  else classify_step loads r1 st

/-- Projection of a terminal state onto the six returned keys. -/
def result_of (f : EmailClassificationState) : ClassifyResult :=
  { email_id := f.email_id, category := f.category, confidence := f.confidence,
    reasoning := f.reasoning, keywords := f.keywords, processing_stage := f.processing_stage }

/-- A sample post-classification state with a valid category and
in-range confidence. -/
def sample_state : EmailClassificationState :=
  { initial_state "mail-1" "hello" "body" "a@b" with
    category := "neutral"
    confidence := mkRat 55 100
    reasoning := .str "unclear"
    keywords := .arr [.str "urgent"]
    processing_stage := "classified" }

/-! ### Helper lemmas -/

theorem startsL_iff (p l : List Char) : startsL p l = true ↔ ∃ t, l = p ++ t := by
  induction p generalizing l with
  | nil => simp [startsL]
  | cons c cs ih =>
    cases l with
    | nil => simp [startsL]
    | cons d ds =>
      simp only [startsL, Bool.and_eq_true, decide_eq_true_eq, ih, List.cons_append,
        List.cons.injEq]
      constructor
      · rintro ⟨rfl, t, rfl⟩; exact ⟨t, rfl, rfl⟩
      · rintro ⟨t, rfl, rfl⟩; exact ⟨rfl, t, rfl⟩

theorem endsL_iff (p l : List Char) : endsL p l = true ↔ ∃ s, l = s ++ p := by
  unfold endsL
  rw [startsL_iff]
  constructor
  · rintro ⟨t, ht⟩
    refine ⟨t.reverse, ?_⟩
    have h2 := congrArg List.reverse ht
    simpa using h2
  · rintro ⟨s, rfl⟩
    exact ⟨s.reverse, by simp⟩

theorem startsL_mono {p q l : List Char} (h : startsL (p ++ q) l = true) :
    startsL p l = true := by
  rw [startsL_iff] at h ⊢
  obtain ⟨t, rfl⟩ := h
  exact ⟨q ++ t, by simp⟩

theorem dropWhile_fixed_of_app {p : Char → Bool} {m t : List Char}
    (h : (m ++ t).dropWhile p = m ++ t) : m.dropWhile p = m := by
  cases m with
  | nil => rfl
  | cons c cs =>
    simp only [List.cons_append, List.dropWhile_cons] at h ⊢
    by_cases hp : p c
    · exfalso
      rw [if_pos hp] at h
      have hlen := congrArg List.length h
      have hle : ((cs ++ t).dropWhile p).length ≤ (cs ++ t).length :=
        (List.dropWhile_sublist p).length_le
      simp only [List.length_cons] at hlen
      omega
    · rw [if_neg hp]

theorem stripChars_eq (l : List Char) :
    stripChars l = List.rdropWhile Char.isWhitespace (List.dropWhile Char.isWhitespace l) := rfl

theorem stripChars_idem (l : List Char) : stripChars (stripChars l) = stripChars l := by
  have hfix_d : List.dropWhile Char.isWhitespace (List.dropWhile Char.isWhitespace l)
      = List.dropWhile Char.isWhitespace l := List.dropWhile_idempotent _ _
  obtain ⟨s, hs⟩ :=
    List.dropWhile_suffix (l := (List.dropWhile Char.isWhitespace l).reverse) Char.isWhitespace
  have hdm : List.dropWhile Char.isWhitespace l
      = List.rdropWhile Char.isWhitespace (List.dropWhile Char.isWhitespace l) ++ s.reverse := by
    unfold List.rdropWhile
    conv_lhs => rw [← List.reverse_reverse (List.dropWhile Char.isWhitespace l), ← hs]
    simp
  have hfix_m : List.dropWhile Char.isWhitespace
        (List.rdropWhile Char.isWhitespace (List.dropWhile Char.isWhitespace l))
      = List.rdropWhile Char.isWhitespace (List.dropWhile Char.isWhitespace l) := by
    apply dropWhile_fixed_of_app (t := s.reverse)
    rw [← hdm]
    exact hfix_d
  rw [stripChars_eq l, stripChars_eq, hfix_m, List.rdropWhile_idempotent]

theorem SegOf_refl (l : List Char) : SegOf l l := ⟨[], [], by simp⟩

theorem SegOf_trans {a b c : List Char} (h1 : SegOf a b) (h2 : SegOf b c) : SegOf a c := by
  obtain ⟨s1, t1, rfl⟩ := h2
  obtain ⟨s2, t2, rfl⟩ := h1
  exact ⟨s1 ++ s2, t2 ++ t1, by simp⟩

theorem drop_seg (l : List Char) (n : Nat) : SegOf (l.drop n) l :=
  ⟨l.take n, [], by simp⟩

theorem take_seg (l : List Char) (n : Nat) : SegOf (l.take n) l :=
  ⟨[], l.drop n, by simp⟩

theorem stripChars_seg (l : List Char) : SegOf (stripChars l) l := by
  obtain ⟨s, hs⟩ := List.dropWhile_suffix (l := l) Char.isWhitespace
  obtain ⟨u, hu⟩ :=
    List.dropWhile_suffix (l := (List.dropWhile Char.isWhitespace l).reverse) Char.isWhitespace
  refine ⟨s, u.reverse, ?_⟩
  have hd : List.dropWhile Char.isWhitespace l = stripChars l ++ u.reverse := by
    unfold stripChars
    conv_lhs => rw [← List.reverse_reverse (List.dropWhile Char.isWhitespace l), ← hu]
    simp
  conv_lhs => rw [← hs, hd]
  rw [List.append_assoc]

theorem dropOpen_seg (l : List Char) : SegOf (dropOpen l) l := by
  unfold dropOpen
  split
  · exact drop_seg l 7
  · split
    · exact drop_seg l 3
    · exact SegOf_refl l

theorem dropClose_seg (l : List Char) : SegOf (dropClose l) l := by
  unfold dropClose
  split
  · exact take_seg l (l.length - 3)
  · exact SegOf_refl l

theorem cleanCore_seg (l : List Char) : SegOf (cleanCore l) l := by
  unfold cleanCore
  exact SegOf_trans (stripChars_seg _)
    (SegOf_trans (dropClose_seg _) (SegOf_trans (dropOpen_seg _) (stripChars_seg _)))

theorem cleanCore_strip (l : List Char) : stripChars (cleanCore l) = cleanCore l := by
  unfold cleanCore
  exact stripChars_idem _

theorem cleanCore_fixed {l : List Char}
    (h1 : startsL "```".data (cleanCore l) = false)
    (h2 : endsL "```".data (cleanCore l) = false) :
    cleanCore (cleanCore l) = cleanCore l := by
  have hjson : startsL "```json".data (cleanCore l) = false := by
    cases hj : startsL "```json".data (cleanCore l) with
    | false => rfl
    | true =>
      have hsplit : ("```json".data : List Char) = "```".data ++ "json".data := by decide
      have h3 : startsL "```".data (cleanCore l) = true := startsL_mono (hsplit ▸ hj)
      rw [h3] at h1
      cases h1
  conv_lhs => rw [cleanCore, cleanCore_strip]
  unfold dropOpen
  rw [hjson, h1]
  simp only [Bool.false_eq_true, if_false]
  unfold dropClose
  rw [h2]
  simp only [Bool.false_eq_true, if_false]
  exact cleanCore_strip l

theorem should_reanalyze_cases (s : Settings) (st : EmailClassificationState) :
    should_reanalyze s st = "max_retries" ∨ should_reanalyze s st = "reanalyze" ∨
      should_reanalyze s st = "end" := by
  unfold should_reanalyze
  split
  · exact Or.inl rfl
  · split
    · exact Or.inr (Or.inl rfl)
    · exact Or.inr (Or.inr rfl)

theorem classifyExtract_ok_parts {j : JsonVal} {c : String} {conf : Rat} {rr kk : JsonVal}
    (h : classifyExtract j = .ok (c, conf, rr, kk)) :
    c ∈ valid_categories ∧ reported_confidence j = .ok conf := by
  unfold classifyExtract at h
  unfold reported_confidence
  simp only [Bind.bind, Except.bind, Pure.pure, Except.pure, throw, throwThe,
    MonadExcept.throw] at h
  repeat' split at h
  all_goals simp_all

theorem reanalyzeExtract_ok_parts {j : JsonVal} {c : String} {conf : Rat} {rr kk : JsonVal}
    (h : reanalyzeExtract j = .ok (c, conf, rr, kk)) :
    c ∈ valid_categories ∧ reported_confidence j = .ok conf := by
  unfold reanalyzeExtract at h
  unfold reported_confidence
  simp only [Bind.bind, Except.bind, Pure.pure, Except.pure, throw, throwThe,
    MonadExcept.throw] at h
  repeat' split at h
  all_goals simp_all

theorem classify_step_cases (loads : String → Except String JsonVal) (resp : LLMResponse)
    (st : EmailClassificationState) :
    (∃ e, classify_step loads resp st = classifyErrorState st e) ∨
    classify_step loads resp st = jsonParseFailState st ∨
    (∃ text j c conf rr kk, resp = .content text ∧
      loads (clean_json_response text) = .ok j ∧ classifyExtract j = .ok (c, conf, rr, kk) ∧
      classify_step loads resp st =
        { st with
          category := c
          confidence := conf
          reasoning := rr
          keywords := kk
          processing_stage := "classified" }) := by
  cases resp with
  | raiseErr e => exact .inl ⟨e, rfl⟩
  | content text =>
    cases hl : loads (clean_json_response text) with
    | error e =>
      refine .inr (.inl ?_)
      simp only [classify_step, hl]
    | ok j =>
      cases he : classifyExtract j with
      | error e =>
        refine .inl ⟨e, ?_⟩
        simp only [classify_step, hl, he]
      | ok tup =>
        obtain ⟨c, conf, rr, kk⟩ := tup
        refine .inr (.inr ⟨text, j, c, conf, rr, kk, rfl, hl, he, ?_⟩)
        simp only [classify_step, hl, he]

theorem reanalyze_step_cases (loads : String → Except String JsonVal) (resp : LLMResponse)
    (st : EmailClassificationState) :
    reanalyze_step loads resp st =
      { st with
        retry_count := st.retry_count + 1
        processing_stage := "reanalysis_failed" } ∨
    (∃ text j c conf rr kk, resp = .content text ∧
      loads (clean_json_response text) = .ok j ∧ reanalyzeExtract j = .ok (c, conf, rr, kk) ∧
      reanalyze_step loads resp st =
        { st with
          category := c
          confidence := conf
          reasoning := rr
          keywords := kk
          retry_count := st.retry_count + 1
          processing_stage := "reanalyzed" }) := by
  cases resp with
  | raiseErr e => exact .inl rfl
  | content text =>
    cases hl : loads (clean_json_response text) with
    | error e =>
      refine .inl ?_
      simp only [reanalyze_step, hl]
    | ok j =>
      cases he : reanalyzeExtract j with
      | error e =>
        refine .inl ?_
        simp only [reanalyze_step, hl, he]
      | ok tup =>
        obtain ⟨c, conf, rr, kk⟩ := tup
        refine .inr ⟨text, j, c, conf, rr, kk, rfl, hl, he, ?_⟩
        simp only [reanalyze_step, hl, he]

theorem classify_email_node_ok {s : Settings} {loads : String → Except String JsonVal}
    {resp : LLMResponse} {st st' : EmailClassificationState} :
    classify_email_node s loads resp st = .ok st' ↔
      (∃ p, get_llm s = .ok p) ∧ st' = classify_step loads resp st := by
  unfold classify_email_node
  cases hg : get_llm s with
  | error e => simp [hg]
  | ok p =>
    simp only [hg, Except.ok.injEq]
    constructor
    · intro h; exact ⟨⟨p, rfl⟩, h.symm⟩
    · rintro ⟨-, rfl⟩; rfl

theorem reanalyze_node_ok {s : Settings} {loads : String → Except String JsonVal}
    {resp : LLMResponse} {st st' : EmailClassificationState} :
    reanalyze_node s loads resp st = .ok st' ↔
      (∃ p, get_llm s = .ok p) ∧ st' = reanalyze_step loads resp st := by
  unfold reanalyze_node
  cases hg : get_llm s with
  | error e => simp [hg]
  | ok p =>
    simp only [hg, Except.ok.injEq]
    constructor
    · intro h; exact ⟨⟨p, rfl⟩, h.symm⟩
    · rintro ⟨-, rfl⟩; rfl

theorem run_workflow_eq (s : Settings) (loads : String → Except String JsonVal)
    (r1 r2 : LLMResponse) (st : EmailClassificationState) (p : LLMProvider)
    (hp : get_llm s = .ok p) :
    run_classification_workflow s loads r1 r2 st = .ok (workflow_final s loads r1 r2 st) := by
  unfold run_classification_workflow classify_email_node reanalyze_node workflow_final
  rw [hp]
  rcases should_reanalyze_cases s (classify_step loads r1 st) with h | h | h <;>
    simp [h]

theorem classify_email_eq (s : Settings) (loads : String → Except String JsonVal)
    (r1 r2 : LLMResponse) (a b c d : String) (p : LLMProvider) (hp : get_llm s = .ok p) :
    classify_email s loads r1 r2 a b c d =
      .ok (result_of (workflow_final s loads r1 r2 (initial_state a b c d))) := by
  unfold classify_email
  rw [run_workflow_eq s loads r1 r2 _ p hp]
  rfl

theorem classify_step_retry (loads : String → Except String JsonVal) (resp : LLMResponse)
    (st : EmailClassificationState) :
    (classify_step loads resp st).retry_count = st.retry_count := by
  rcases classify_step_cases loads resp st with ⟨e, hE⟩ | hP | ⟨t, j, c, cf, rr, kk, -, -, -, hS⟩
  · rw [hE]; rfl
  · rw [hP]; rfl
  · rw [hS]

theorem reanalyze_step_retry (loads : String → Except String JsonVal) (resp : LLMResponse)
    (st : EmailClassificationState) :
    (reanalyze_step loads resp st).retry_count = st.retry_count + 1 := by
  rcases reanalyze_step_cases loads resp st with hF | ⟨t, j, c, cf, rr, kk, -, -, -, hS⟩
  · rw [hF]
  · rw [hS]

theorem classify_step_category (loads : String → Except String JsonVal) (resp : LLMResponse)
    (st : EmailClassificationState) :
    (classify_step loads resp st).category ∈ valid_categories := by
  rcases classify_step_cases loads resp st with ⟨e, hE⟩ | hP | ⟨t, j, c, cf, rr, kk, -, -, he, hS⟩
  · rw [hE]; exact show "neutral" ∈ valid_categories by decide
  · rw [hP]; exact show "neutral" ∈ valid_categories by decide
  · rw [hS]; exact (classifyExtract_ok_parts he).1

theorem classify_step_stage (loads : String → Except String JsonVal) (resp : LLMResponse)
    (st : EmailClassificationState) :
    (classify_step loads resp st).processing_stage ∈ ["classified", "error_json_parse", "error"] := by
  rcases classify_step_cases loads resp st with ⟨e, hE⟩ | hP | ⟨t, j, c, cf, rr, kk, -, -, -, hS⟩
  · rw [hE]; exact show "error" ∈ ["classified", "error_json_parse", "error"] by decide
  · rw [hP]; exact show "error_json_parse" ∈ ["classified", "error_json_parse", "error"] by decide
  · rw [hS]; exact show "classified" ∈ ["classified", "error_json_parse", "error"] by decide

theorem reanalyze_step_stage (loads : String → Except String JsonVal) (resp : LLMResponse)
    (st : EmailClassificationState) :
    (reanalyze_step loads resp st).processing_stage ∈ ["reanalyzed", "reanalysis_failed"] := by
  rcases reanalyze_step_cases loads resp st with hF | ⟨t, j, c, cf, rr, kk, -, -, -, hS⟩
  · rw [hF]; exact show "reanalysis_failed" ∈ ["reanalyzed", "reanalysis_failed"] by decide
  · rw [hS]; exact show "reanalyzed" ∈ ["reanalyzed", "reanalysis_failed"] by decide

/-! ### Claim theorems -/

/-- C1, counterexample: with the default configuration (provider `gemini`,
no API key set), `classify_email` propagates the factory's `ValueError`
to its caller instead of encoding the failure in the state — because
`get_llm()` runs before the `try` block in both nodes.  This refutes the
claim that the operation never raises for every configuration. -/
theorem classify_email_raises_on_missing_api_key :
    classify_email default_settings loads_err (.content "ok") (.content "ok")
      "mail-1" "subject" "body" "sender@example.com"
      = .error (api_key_error_msg "gemini") := by
  rfl

/-- C1, amended: provided the LLM factory succeeds (supported provider
with a nonempty API key), `classify_email` returns a structurally valid
result for every Completion Capability behaviour and every decoder
behaviour; only a factory configuration error can propagate as an
exception. -/
theorem classify_email_total_of_factory_ok (s : Settings)
    (loads : String → Except String JsonVal) (r1 r2 : LLMResponse) (a b c d : String)
    (h : ∃ p, get_llm s = .ok p) :
    ∃ res, classify_email s loads r1 r2 a b c d = .ok res := by
  obtain ⟨p, hp⟩ := h
  exact ⟨_, classify_email_eq s loads r1 r2 a b c d p hp⟩

/-- Witness for C1's amended theorem at a keyed configuration. -/
theorem classify_email_total_of_factory_ok_witness :
    ∃ res, classify_email test_settings loads_err (.content "ok") (.content "ok")
      "mail-1" "subject" "body" "sender@example.com" = .ok res :=
  classify_email_total_of_factory_ok test_settings loads_err (.content "ok") (.content "ok")
    "mail-1" "subject" "body" "sender@example.com" ⟨.gemini, rfl⟩

/-- C2, counterexample: a structurally valid model payload reporting
confidence 2.0 flows through `float(result["confidence"])` unclamped, so
the returned confidence is 2, outside [0, 1].  This refutes the claim
that the confidence is always within [0, 1] for every model text. -/
theorem confidence_out_of_range_on_overconfident_model :
    (classify_email test_settings (loads_const over_payload) (.content "ok") (.content "ok")
        "mail-1" "subject" "body" "sender@example.com").map (fun r => r.confidence)
      = .ok 2 ∧ ¬ ((2 : Rat) ≤ 1) := by
  constructor
  · rfl
  · decide

/-- C2, amended: every failure branch of either node yields confidence
0.3 (or, for a failed reanalysis, the preserved prior value), and the
success branches copy exactly the coerced model value — so the invariant
`0 ≤ confidence ≤ 1` holds precisely when every confidence the decoded
payloads report lies in [0, 1] (and, for reanalysis, the prior state was
in range). -/
theorem confidence_in_range_of_model_in_range (s : Settings)
    (loads : String → Except String JsonVal) (resp : LLMResponse)
    (st st' : EmailClassificationState)
    (hmodel : ∀ text j c, loads text = .ok j → reported_confidence j = .ok c →
      0 ≤ c ∧ c ≤ 1) :
    (classify_email_node s loads resp st = .ok st' →
      0 ≤ st'.confidence ∧ st'.confidence ≤ 1) ∧
    (0 ≤ st.confidence → st.confidence ≤ 1 →
      reanalyze_node s loads resp st = .ok st' →
      0 ≤ st'.confidence ∧ st'.confidence ≤ 1) := by
  constructor
  · intro h
    rw [classify_email_node_ok] at h
    obtain ⟨-, rfl⟩ := h
    rcases classify_step_cases loads resp st with
      ⟨e, hE⟩ | hP | ⟨t, j, c, cf, rr, kk, -, hl, he, hS⟩
    · rw [hE]; exact show 0 ≤ mkRat 3 10 ∧ mkRat 3 10 ≤ 1 by decide
    · rw [hP]; exact show 0 ≤ mkRat 3 10 ∧ mkRat 3 10 ≤ 1 by decide
    · rw [hS]; exact hmodel _ j cf hl (classifyExtract_ok_parts he).2
  · intro hl0 hl1 h
    rw [reanalyze_node_ok] at h
    obtain ⟨-, rfl⟩ := h
    rcases reanalyze_step_cases loads resp st with
      hF | ⟨t, j, c, cf, rr, kk, -, hl, he, hS⟩
    · rw [hF]; exact ⟨hl0, hl1⟩
    · rw [hS]; exact hmodel _ j cf hl (reanalyzeExtract_ok_parts he).2

/-- Witness for C2's amended theorem on a payload reporting 0.95. -/
theorem confidence_in_range_of_model_in_range_witness :
    0 ≤ (classify_step (loads_const good_payload) (.content "ok")
        (initial_state "a" "b" "c" "d")).confidence ∧
      (classify_step (loads_const good_payload) (.content "ok")
        (initial_state "a" "b" "c" "d")).confidence ≤ 1 :=
  (confidence_in_range_of_model_in_range test_settings (loads_const good_payload)
      (.content "ok") (initial_state "a" "b" "c" "d")
      (classify_step (loads_const good_payload) (.content "ok") (initial_state "a" "b" "c" "d"))
      (by
        intro text j c h1 h2
        injection (show (Except.ok good_payload : Except String JsonVal) = .ok j from h1)
          with h3
        subst h3
        injection (show (Except.ok (mkRat 95 100) : Except String Rat) = .ok c from h2)
          with h5
        rw [← h5]
        decide)).1 rfl

/-- C3: the routing decision stops (`"max_retries"`) whenever
`retry_count >= 1` regardless of confidence; otherwise it retries exactly
when confidence is strictly below the configured threshold; at the
boundary (confidence equal to the threshold) it stops; and the default
threshold is 0.50. -/
theorem should_reanalyze_routing (s : Settings) (st : EmailClassificationState) :
    (st.retry_count ≥ 1 → should_reanalyze s st = "max_retries") ∧
    (st.retry_count < 1 → st.confidence < s.low_confidence_threshold →
      should_reanalyze s st = "reanalyze") ∧
    (st.retry_count < 1 → ¬ st.confidence < s.low_confidence_threshold →
      should_reanalyze s st = "end") ∧
    (st.retry_count = 0 → st.confidence = s.low_confidence_threshold →
      should_reanalyze s st = "end") ∧
    default_settings.low_confidence_threshold = mkRat 1 2 := by
  refine ⟨?_, ?_, ?_, ?_, rfl⟩ <;> unfold should_reanalyze
  · intro h; rw [if_pos h]
  · intro h1 h2; rw [if_neg (by omega), if_pos h2]
  · intro h1 h2; rw [if_neg (by omega), if_neg h2]
  · intro h1 h2
    rw [if_neg (show ¬ st.retry_count ≥ 1 by omega),
      if_neg (show ¬ st.confidence < s.low_confidence_threshold by rw [h2]; exact lt_irrefl _)]

/-- Witness for C3 at the exact boundary: confidence 0.50 with the
default threshold routes to `"end"`. -/
theorem should_reanalyze_routing_witness :
    should_reanalyze default_settings { sample_state with confidence := mkRat 1 2 } = "end" :=
  (should_reanalyze_routing default_settings
      { sample_state with confidence := mkRat 1 2 }).2.2.2.1 rfl rfl

/-- C4: the initial state starts with `retry_count = 0`; the
Classification Node leaves `retry_count` unchanged; the Reanalysis Node
increments it by exactly 1; and a workflow run from `retry_count = 0`
terminates with `retry_count` equal to 0 or 1 — the orchestrator never
returns to `classify`, so the Reanalysis Node runs at most once and at
most two capability invocations happen per request. -/
theorem workflow_retry_discipline (s : Settings) (loads : String → Except String JsonVal)
    (resp r1 r2 : LLMResponse) (st st' : EmailClassificationState) (a b c d : String) :
    ((initial_state a b c d).retry_count = 0) ∧
    (classify_email_node s loads resp st = .ok st' → st'.retry_count = st.retry_count) ∧
    (reanalyze_node s loads resp st = .ok st' → st'.retry_count = st.retry_count + 1) ∧
    (st.retry_count = 0 → run_classification_workflow s loads r1 r2 st = .ok st' →
      st'.retry_count = 0 ∨ st'.retry_count = 1) := by
  refine ⟨rfl, ?_, ?_, ?_⟩
  · intro h
    rw [classify_email_node_ok] at h
    obtain ⟨-, rfl⟩ := h
    exact classify_step_retry loads resp st
  · intro h
    rw [reanalyze_node_ok] at h
    obtain ⟨-, rfl⟩ := h
    exact reanalyze_step_retry loads resp st
  · intro h0 h
    cases hg : get_llm s with
    | error e =>
      unfold run_classification_workflow classify_email_node at h
      rw [hg] at h
      simp at h
    | ok p =>
      rw [run_workflow_eq s loads r1 r2 st p hg] at h
      injection h with h
      subst h
      unfold workflow_final
      split
      · right
        rw [reanalyze_step_retry, classify_step_retry, h0]
        decide
      · left
        rw [classify_step_retry, h0]

/-- Witness for C4 on a concrete high-confidence run. -/
theorem workflow_retry_discipline_witness :
    (workflow_final test_settings (loads_const good_payload) (.content "ok") (.content "ok")
        (initial_state "a" "b" "c" "d")).retry_count = 0 ∨
      (workflow_final test_settings (loads_const good_payload) (.content "ok") (.content "ok")
        (initial_state "a" "b" "c" "d")).retry_count = 1 :=
  (workflow_retry_discipline test_settings (loads_const good_payload) (.content "ok")
      (.content "ok") (.content "ok") (initial_state "a" "b" "c" "d")
      (workflow_final test_settings (loads_const good_payload) (.content "ok") (.content "ok")
        (initial_state "a" "b" "c" "d")) "a" "b" "c" "d").2.2.2 rfl
    (run_workflow_eq test_settings (loads_const good_payload) (.content "ok") (.content "ok")
      (initial_state "a" "b" "c" "d") .gemini rfl)

/-- C5: whenever `classify_email` returns a result, its category is one
of `spam`, `important`, `neutral`; the Classification Node always
commits a category in that set, and the Reanalysis Node commits either a
category in that set or exactly the prior one — so a non-empty category
is never overwritten with an invalid literal. -/
theorem returned_category_valid (s : Settings) (loads : String → Except String JsonVal)
    (resp r1 r2 : LLMResponse) (a b c d : String) (res : ClassifyResult)
    (st st' : EmailClassificationState) :
    (classify_email s loads r1 r2 a b c d = .ok res → res.category ∈ valid_categories) ∧
    (classify_email_node s loads resp st = .ok st' → st'.category ∈ valid_categories) ∧
    (reanalyze_node s loads resp st = .ok st' →
      st'.category ∈ valid_categories ∨ st'.category = st.category) := by
  refine ⟨?_, ?_, ?_⟩
  · intro h
    cases hg : get_llm s with
    | error e =>
      unfold classify_email run_classification_workflow classify_email_node at h
      rw [hg] at h
      simp at h
    | ok p =>
      rw [classify_email_eq s loads r1 r2 a b c d p hg] at h
      injection h with h
      subst h
      show (workflow_final s loads r1 r2 (initial_state a b c d)).category ∈ valid_categories
      unfold workflow_final
      split
      · rcases reanalyze_step_cases loads r2 (classify_step loads r1 (initial_state a b c d))
          with hF | ⟨t, j, c2, cf, rr, kk, -, -, he, hS⟩
        · rw [hF]
          exact classify_step_category loads r1 (initial_state a b c d)
        · rw [hS]
          exact (reanalyzeExtract_ok_parts he).1
      · exact classify_step_category loads r1 (initial_state a b c d)
  · intro h
    rw [classify_email_node_ok] at h
    obtain ⟨-, rfl⟩ := h
    exact classify_step_category loads resp st
  · intro h
    rw [reanalyze_node_ok] at h
    obtain ⟨-, rfl⟩ := h
    rcases reanalyze_step_cases loads resp st with hF | ⟨t, j, c2, cf, rr, kk, -, -, he, hS⟩
    · rw [hF]; right; rfl
    · rw [hS]; left; exact (reanalyzeExtract_ok_parts he).1

/-- Witness for C5 on a concrete successful run. -/
theorem returned_category_valid_witness :
    (result_of (workflow_final test_settings (loads_const good_payload) (.content "ok")
        (.content "ok") (initial_state "a" "b" "c" "d"))).category ∈ valid_categories :=
  (returned_category_valid test_settings (loads_const good_payload) (.content "ok")
      (.content "ok") (.content "ok") "a" "b" "c" "d"
      (result_of (workflow_final test_settings (loads_const good_payload) (.content "ok")
        (.content "ok") (initial_state "a" "b" "c" "d"))) sample_state sample_state).1
    (classify_email_eq test_settings (loads_const good_payload) (.content "ok") (.content "ok")
      "a" "b" "c" "d" .gemini rfl)

/-- C6: whenever the Reanalysis Node returns a state (any capability or
validation failure included), the four input fields are unchanged and
`retry_count` is incremented by exactly 1; and either the run succeeded
(`reanalyzed`) or the prior `category`, `confidence`, `reasoning` and
`keywords` are preserved exactly with `processing_stage =
reanalysis_failed`. -/
theorem reanalysis_failure_preserves_fields (s : Settings)
    (loads : String → Except String JsonVal) (resp : LLMResponse)
    (st st' : EmailClassificationState) :
    reanalyze_node s loads resp st = .ok st' →
      st'.email_id = st.email_id ∧ st'.subject = st.subject ∧ st'.sender = st.sender ∧
      st'.body = st.body ∧ st'.retry_count = st.retry_count + 1 ∧
      (st'.processing_stage = "reanalyzed" ∨
        (st'.processing_stage = "reanalysis_failed" ∧ st'.category = st.category ∧
         st'.confidence = st.confidence ∧ st'.reasoning = st.reasoning ∧
         st'.keywords = st.keywords)) := by
  intro h
  rw [reanalyze_node_ok] at h
  obtain ⟨-, rfl⟩ := h
  rcases reanalyze_step_cases loads resp st with hF | ⟨t, j, c2, cf, rr, kk, -, -, -, hS⟩
  · rw [hF]
    exact ⟨rfl, rfl, rfl, rfl, rfl, Or.inr ⟨rfl, rfl, rfl, rfl, rfl⟩⟩
  · rw [hS]
    exact ⟨rfl, rfl, rfl, rfl, rfl, Or.inl rfl⟩

/-- Witness for C6 on a failing reanalysis (undecodable model text). -/
theorem reanalysis_failure_preserves_fields_witness :
    (reanalyze_step loads_err (.content "ok") sample_state).email_id = sample_state.email_id ∧
    (reanalyze_step loads_err (.content "ok") sample_state).subject = sample_state.subject ∧
    (reanalyze_step loads_err (.content "ok") sample_state).sender = sample_state.sender ∧
    (reanalyze_step loads_err (.content "ok") sample_state).body = sample_state.body ∧
    (reanalyze_step loads_err (.content "ok") sample_state).retry_count
      = sample_state.retry_count + 1 ∧
    ((reanalyze_step loads_err (.content "ok") sample_state).processing_stage = "reanalyzed" ∨
      ((reanalyze_step loads_err (.content "ok") sample_state).processing_stage
          = "reanalysis_failed" ∧
        (reanalyze_step loads_err (.content "ok") sample_state).category
          = sample_state.category ∧
        (reanalyze_step loads_err (.content "ok") sample_state).confidence
          = sample_state.confidence ∧
        (reanalyze_step loads_err (.content "ok") sample_state).reasoning
          = sample_state.reasoning ∧
        (reanalyze_step loads_err (.content "ok") sample_state).keywords
          = sample_state.keywords)) :=
  reanalysis_failure_preserves_fields test_settings loads_err (.content "ok") sample_state
    (reanalyze_step loads_err (.content "ok") sample_state) rfl

/-- C7: with a working factory, the Classification Node's failure modes
are exactly: undecodable normalized text yields the neutral/0.3 defaults
with the fixed unable-to-parse reasoning and stage `error_json_parse`;
any capability invocation error, and any validation failure of a decoded
payload (missing field, invalid category), yields the same defaults with
a truncated error summary and stage `error`. -/
theorem classify_failure_modes (s : Settings) (loads : String → Except String JsonVal)
    (st : EmailClassificationState) (text e : String) (p : LLMProvider)
    (hp : get_llm s = .ok p) :
    (loads (clean_json_response text) = .error e →
      classify_email_node s loads (.content text) st =
        .ok { st with
          category := "neutral"
          confidence := mkRat 3 10
          reasoning := .str "Unable to parse LLM response"
          keywords := .arr []
          processing_stage := "error_json_parse" }) ∧
    (classify_email_node s loads (.raiseErr e) st =
      .ok { st with
        category := "neutral"
        confidence := mkRat 3 10
        reasoning := .str ("Error during classification: " ++ e.take 100)
        keywords := .arr []
        processing_stage := "error" }) ∧
    (∀ j e2, loads (clean_json_response text) = .ok j → classifyExtract j = .error e2 →
      classify_email_node s loads (.content text) st =
        .ok { st with
          category := "neutral"
          confidence := mkRat 3 10
          reasoning := .str ("Error during classification: " ++ e2.take 100)
          keywords := .arr []
          processing_stage := "error" }) := by
  refine ⟨?_, ?_, ?_⟩
  · intro hl
    unfold classify_email_node
    rw [hp]
    simp only [classify_step, hl]
    rfl
  · unfold classify_email_node
    rw [hp]
    rfl
  · intro j e2 hl he
    unfold classify_email_node
    rw [hp]
    simp only [classify_step, hl, he]
    rfl

/-- Witness for C7: a capability invocation error at a keyed
configuration takes the generic `error` branch. -/
theorem classify_failure_modes_witness :
    classify_email_node test_settings loads_err (.raiseErr "boom") sample_state =
      .ok { sample_state with
        category := "neutral"
        confidence := mkRat 3 10
        reasoning := .str ("Error during classification: " ++ "boom".take 100)
        keywords := .arr []
        processing_stage := "error" } :=
  (classify_failure_modes test_settings loads_err sample_state "t" "boom" .gemini rfl).2.1

/-- C8, counterexample: the normalizer is not idempotent — on the input
`"```json```json"` one pass yields `"```json"` and a second pass yields
the empty string. -/
theorem clean_json_response_not_idempotent :
    clean_json_response (clean_json_response "```json```json") ≠
      clean_json_response "```json```json" := by
  decide

/-- C8, amended: the normalizer is idempotent on every input whose
single-pass output neither starts with a fence (so no opener is removed
again) nor ends with one (so no closing fence is removed again); the
counterexample shows the restriction cannot be dropped. -/
theorem clean_json_response_idempotent_of_no_fence (x : String)
    (h1 : startsL "```".data (clean_json_response x).data = false)
    (h2 : endsL "```".data (clean_json_response x).data = false) :
    clean_json_response (clean_json_response x) = clean_json_response x := by
  show String.mk (cleanCore (cleanCore x.data)) = String.mk (cleanCore x.data)
  exact congrArg String.mk (cleanCore_fixed h1 h2)

/-- Witness for C8's amended theorem on a fenced payload. -/
theorem clean_json_response_idempotent_witness :
    clean_json_response (clean_json_response "```json ok ```") =
      clean_json_response "```json ok ```" :=
  clean_json_response_idempotent_of_no_fence "```json ok ```" (by decide) (by decide)

/-- C9, counterexample: an opener with the language tag `python` is not
removed whole — only the three backticks are dropped and the tag itself
survives in the output, contradicting the claim that any language-tagged
opener is removed entirely (which would leave `"x"` here). -/
theorem clean_json_response_keeps_other_language_tags :
    clean_json_response "```python x ```" = "python x" ∧
      ("python x" : String) ≠ "x" := by
  decide

/-- C9, amended: the output is always a contiguous, unaltered run of the
input's characters; the literal `` ```json `` opener is removed whole
(seven characters); any other fence — language-tagged or bare — loses
only its three backticks, so a non-`json` tag remains; in every case a
trailing closing fence is removed and the result re-trimmed. -/
theorem clean_json_response_fence_semantics (x : String) :
    SegOf (clean_json_response x).data x.data ∧
    (startsL "```json".data (stripChars x.data) = true →
      (clean_json_response x).data = stripChars (dropClose ((stripChars x.data).drop 7))) ∧
    (startsL "```json".data (stripChars x.data) = false →
      startsL "```".data (stripChars x.data) = true →
      (clean_json_response x).data = stripChars (dropClose ((stripChars x.data).drop 3))) ∧
    (startsL "```".data (stripChars x.data) = false →
      (clean_json_response x).data = stripChars (dropClose (stripChars x.data))) := by
  refine ⟨cleanCore_seg x.data, ?_, ?_, ?_⟩
  · intro h
    show cleanCore x.data = _
    unfold cleanCore dropOpen
    rw [if_pos h]
  · intro hn h
    show cleanCore x.data = _
    unfold cleanCore dropOpen
    rw [if_neg (by simp [hn]), if_pos h]
  · intro h
    have hjson : startsL "```json".data (stripChars x.data) = false := by
      cases hj : startsL "```json".data (stripChars x.data) with
      | false => rfl
      | true =>
        have hsplit : ("```json".data : List Char) = "```".data ++ "json".data := by decide
        have h3 : startsL "```".data (stripChars x.data) = true := startsL_mono (hsplit ▸ hj)
        rw [h3] at h
        cases h
    show cleanCore x.data = _
    unfold cleanCore dropOpen
    rw [if_neg (by simp [hjson]), if_neg (by simp [h])]

/-- Witness for C9's amended theorem: the `python`-tagged opener keeps
its tag. -/
theorem clean_json_response_fence_semantics_witness :
    (clean_json_response "```python x ```").data =
      stripChars (dropClose ((stripChars ("```python x ```" : String).data).drop 3)) :=
  (clean_json_response_fence_semantics "```python x ```").2.2.1 (by decide) (by decide)

/-- C10: whenever `classify_email` returns, the result (a record with
exactly the six keys `email_id`, `category`, `confidence`, `reasoning`,
`keywords`, `processing_stage`) carries a `processing_stage` among the
five post-step tags and never the initial `"initialized"` — every branch
of the Classification Node assigns a post-step stage before the workflow
can terminate. -/
theorem result_stage_constrained (s : Settings) (loads : String → Except String JsonVal)
    (r1 r2 : LLMResponse) (a b c d : String) (res : ClassifyResult) :
    classify_email s loads r1 r2 a b c d = .ok res →
      res.processing_stage ∈
        ["classified", "error_json_parse", "error", "reanalyzed", "reanalysis_failed"] ∧
      res.processing_stage ≠ "initialized" := by
  intro h
  cases hg : get_llm s with
  | error e =>
    unfold classify_email run_classification_workflow classify_email_node at h
    rw [hg] at h
    simp at h
  | ok p =>
    rw [classify_email_eq s loads r1 r2 a b c d p hg] at h
    injection h with h
    subst h
    show (workflow_final s loads r1 r2 (initial_state a b c d)).processing_stage ∈ _ ∧
      (workflow_final s loads r1 r2 (initial_state a b c d)).processing_stage ≠ "initialized"
    have hs : (workflow_final s loads r1 r2 (initial_state a b c d)).processing_stage ∈
        ["classified", "error_json_parse", "error", "reanalyzed", "reanalysis_failed"] := by
      unfold workflow_final
      split
      · have h2 := reanalyze_step_stage loads r2 (classify_step loads r1 (initial_state a b c d))
        simp only [List.mem_cons, List.not_mem_nil, or_false] at h2 ⊢
        tauto
      · have h2 := classify_step_stage loads r1 (initial_state a b c d)
        simp only [List.mem_cons, List.not_mem_nil, or_false] at h2 ⊢
        tauto
    refine ⟨hs, ?_⟩
    intro hinit
    rw [hinit] at hs
    exact absurd hs (by decide)

/-- Witness for C10 on a concrete successful run. -/
theorem result_stage_constrained_witness :
    (result_of (workflow_final test_settings (loads_const good_payload) (.content "ok")
        (.content "ok") (initial_state "a" "b" "c" "d"))).processing_stage ∈
        ["classified", "error_json_parse", "error", "reanalyzed", "reanalysis_failed"] ∧
      (result_of (workflow_final test_settings (loads_const good_payload) (.content "ok")
        (.content "ok") (initial_state "a" "b" "c" "d"))).processing_stage ≠ "initialized" :=
  result_stage_constrained test_settings (loads_const good_payload) (.content "ok")
    (.content "ok") "a" "b" "c" "d"
    (result_of (workflow_final test_settings (loads_const good_payload) (.content "ok")
      (.content "ok") (initial_state "a" "b" "c" "d")))
    (classify_email_eq test_settings (loads_const good_payload) (.content "ok") (.content "ok")
      "a" "b" "c" "d" .gemini rfl)

end EmailIntel
